import Mathlib

/-!
# Token-verification middleware of the feature-flag backend

A shallow embedding of `jwt/jwt.go` (package `jwt`) and of the constants of
`utils/Constants.go` it uses, followed by theorems about the embedding.

Modelling conventions.

* Go strings are lists of characters (`Str`); the text is taken to be valid UTF-8,
  so that prefix tests and splitting on an ASCII separator agree with the
  byte-wise operations of package `strings`.
* A Go `error` is its message; a function returning `(T, error)` is a function into
  `Except Str T`, except for the middleware closure, whose three results are kept
  as a triple.
* The package-level variables `once`, `jwtUtilsInstance`, `initError` are the fields
  of `Process`; every function that reads or writes them takes and returns a
  `Process`.
* What the code reaches outside the process (environment variables, the parameter
  store, PEM and X.509 decoding, the JWT library) is a field of `World`; a call may
  find a different `World` than the previous one.
* Calls whose occurrence matters are recorded as `Event`s returned next to the result.
-/

namespace FeatureFlag

/-! ## Strings -/

/-- Go `string`. -/
abbrev Str := List Char

/-- Go `strings.HasPrefix`. -/
def HasPrefix (s pre : Str) : Bool := pre.isPrefixOf s

/-- Go `strings.TrimPrefix`: `s` without the leading `pre`, or `s` itself. -/
def TrimPrefix (s pre : Str) : Str :=
  if HasPrefix s pre then s.drop pre.length else s

/-- Go `unicode.IsSpace`: the Latin-1 cases are listed, the others are the
`White_Space` table. -/
def IsSpace (r : Char) : Bool :=
  if r.toNat ≤ 0xFF then
    r.toNat == 0x09 || r.toNat == 0x0A || r.toNat == 0x0B || r.toNat == 0x0C ||
    r.toNat == 0x0D || r.toNat == 0x20 || r.toNat == 0x85 || r.toNat == 0xA0
  else
    r.toNat == 0x1680 || (0x2000 ≤ r.toNat && r.toNat ≤ 0x200A) ||
    r.toNat == 0x2028 || r.toNat == 0x2029 || r.toNat == 0x202F ||
    r.toNat == 0x205F || r.toNat == 0x3000

/-- Go `strings.TrimLeftFunc`. -/
def TrimLeftFunc (s : Str) (f : Char → Bool) : Str := s.dropWhile f

/-- Go `strings.TrimRightFunc`. -/
def TrimRightFunc (s : Str) (f : Char → Bool) : Str := (s.reverse.dropWhile f).reverse

/-- Go `strings.TrimSpace`: leading and trailing white space removed. -/
def TrimSpace (s : Str) : Str := TrimRightFunc (TrimLeftFunc s IsSpace) IsSpace

/-- Go `strings.Split` with an empty separator: one string per character. -/
def explode (s : Str) : List Str := s.map (fun c => [c])

/-- Go `strings.Split` with a non-empty separator `sep`, scanning left to right.
`skip` counts the characters of a separator that was just found and is still to be
passed over; `acc` is the current piece, reversed. -/
def genSplit (sep : Str) : Nat → Str → Str → List Str
  | _, acc, [] => [acc.reverse]
  | skip + 1, acc, _ :: cs => genSplit sep skip acc cs
  | 0, acc, c :: cs =>
    if HasPrefix (c :: cs) sep then acc.reverse :: genSplit sep (sep.length - 1) [] cs
    else genSplit sep 0 (c :: acc) cs

/-- Go `strings.Split`. -/
def Split (s sep : Str) : List Str :=
  if sep = [] then explode s else genSplit sep 0 [] s

/-- Go `strings.Join`. -/
def Join : List Str → Str → Str
  | [], _ => []
  | [a], _ => a
  | a :: b :: rest, sep => a ++ sep ++ Join (b :: rest) sep

/-! ## Constants and configuration -/

/-- Constant `utils.DEV`. -/
def DEV : Str := "DEVELOPMENT".toList

/-- Constant `utils.PROD`. -/
def PROD : Str := "PRODUCTION".toList

/-- The constants of package `utils` that `jwt.go` names and `Constants.go` does not
declare; their values are left open. -/
structure Constants where
  SESSION_COOKIE_NAME_PROD : Str
  SESSION_COOKIE_NAME_DEV : Str
  SESSION_COOKIE_NAME_LOCAL : Str
  RDS_BACKEND_PUBLIC_KEY_NAME_PROD : Str
  RDS_BACKEND_PUBLIC_KEY_NAME_DEV : Str
  RDS_BACKEND_PUBLIC_KEY_NAME_LOCAL : Str

/-- Struct `EnvConfig`. -/
structure EnvConfig where
  SessionCookieName : Str
  Environment : Str
  PublicKeyName : Str
deriving DecidableEq

/-- Go `os.Getenv` over the process environment `environ`: the value of the variable,
or the empty string when it is not set. -/
def Getenv (environ : Str → Option Str) (key : Str) : Str := (environ key).getD []

/-- Function `LoadEnvConfig`: the three variables, and a nil error. -/
def LoadEnvConfig (environ : Str → Option Str) : EnvConfig × Option Str :=
  ({ SessionCookieName := Getenv environ "SESSION_COOKIE_NAME".toList
     Environment := Getenv environ "ENVIRONMENT".toList
     PublicKeyName := Getenv environ "RDS_BACKEND_PUBLIC_KEY_NAME".toList }, none)

/-- The value `parameterName` has in `initialize` before the fetch (lines 74 to 84). -/
def parameterNameOf (K : Constants) (envConfig : EnvConfig) : Str :=
  if envConfig.PublicKeyName = [] then
    if envConfig.Environment = PROD then K.RDS_BACKEND_PUBLIC_KEY_NAME_PROD
    else if envConfig.Environment = DEV then K.RDS_BACKEND_PUBLIC_KEY_NAME_DEV
    else K.RDS_BACKEND_PUBLIC_KEY_NAME_LOCAL
  else envConfig.PublicKeyName

/-- The value `cookieName` has in the middleware before the scan (lines 192 to 202). -/
def cookieNameOf (K : Constants) (envConfig : EnvConfig) : Str :=
  if envConfig.SessionCookieName = [] then
    if envConfig.Environment = PROD then K.SESSION_COOKIE_NAME_PROD
    else if envConfig.Environment = DEV then K.SESSION_COOKIE_NAME_DEV
    else K.SESSION_COOKIE_NAME_LOCAL
  else envConfig.SessionCookieName

/-! ## Keys, tokens and claims -/

/-- Go `rsa.PublicKey`. -/
structure RSAPublicKey where
  N : Nat
  E : Nat
deriving DecidableEq

/-- The dynamic types `x509.ParsePKIXPublicKey` returns. -/
inductive PKIXPublicKey where
  | rsa (k : RSAPublicKey)
  | dsa
  | ecdsa
  | ed25519
  | ecdh
deriving DecidableEq

/-- Struct `JWTUtils`; `publicKey` is a pointer and may be nil (`none`). -/
structure JWTUtils where
  publicKey : Option RSAPublicKey
deriving DecidableEq

/-- The dynamic type of an `interface{}` claim value, as JSON decoding produces it;
numbers carry no value here, since the code only asks whether a value is a string. -/
inductive AnyValue where
  | null
  | bool (b : Bool)
  | number
  | string (s : Str)
  | array
  | object
deriving DecidableEq

/-- Go `jwt.MapClaims`, a `map[string]interface{}`: `none` is the nil map. -/
abbrev MapClaims := Option (List (Str × AnyValue))

instance : Nonempty MapClaims := ⟨none⟩

/-- Go map index `claims[key]`: `none` when the key is absent, also in the nil map. -/
def MapClaims.index (claims : MapClaims) (key : Str) : Option AnyValue :=
  match claims with
  | none => none
  | some m => m.lookup key

/-- The dynamic type of `token.Method`; `*jwt.SigningMethodRSA` covers RS256, RS384
and RS512, and `*jwt.SigningMethodRSAPSS` is a different type. -/
inductive SigningMethod where
  | RSA (alg : Str)
  | RSAPSS (alg : Str)
  | HMAC (alg : Str)
  | ECDSA (alg : Str)
  | Ed25519
  | None
deriving DecidableEq

/-- The dynamic type of `token.Claims`. -/
inductive Claims where
  | MapClaims (m : MapClaims)
  | RegisteredClaims
deriving DecidableEq

/-- Go `jwt.Token`. -/
structure Token where
  Raw : Str
  Method : SigningMethod
  Claims : Claims
  Signature : Str
  Valid : Bool
deriving DecidableEq

/-- The parts of the JWT library that `jwt.Parse` calls: decoding of the three
segments (giving the token and the signing input), `Method.Verify`, and the claims
validator (expiry and the like). `none` is a nil error. -/
structure JwtLib where
  ParseUnverified : Str → Except Str (Token × Str)
  Verify : SigningMethod → Str → Str → RSAPublicKey → Option Str
  Validate : Claims → Option Str

/-- Go `jwt.Parse(tokenString, keyFunc)` of golang-jwt v5: decode, ask `keyFunc` for
the key, verify the signature, validate the claims, then mark the token valid. -/
def jwtParse (lib : JwtLib) (tokenString : Str)
    (keyFunc : Token → Except Str RSAPublicKey) : Except Str Token :=
  match lib.ParseUnverified tokenString with
  | .error e => .error e
  | .ok (token, text) =>
    match keyFunc token with
    | .error e => .error ("error while executing keyfunc: ".toList ++ e)
    | .ok key =>
      match lib.Verify token.Method text token.Signature key with
      | some e => .error e
      | none =>
        match lib.Validate token.Claims with
        | some e => .error e
        | none => .ok { token with Valid := true }

/-- The function literal `ValidateToken` passes to `jwt.Parse` (lines 135 to 140). -/
def keyFunc (publicKey : RSAPublicKey) (token : Token) : Except Str RSAPublicKey :=
  match token.Method with
  | .RSA _ => .ok publicKey
  | _ => .error "invalid token".toList

/-- Method `ValidateToken`; the receiver `j` may be nil. -/
def ValidateToken (lib : JwtLib) (j : Option JWTUtils) (tokenString : Str) :
    Except Str MapClaims :=
  match j with
  | none => .error "internal server error".toList
  | some j0 =>
    match j0.publicKey with
    | none => .error "internal server error".toList
    | some publicKey =>
      match jwtParse lib tokenString (keyFunc publicKey) with
      | .error _ => .error "invalid token".toList
      | .ok token =>
        if !token.Valid then .error "invalid token".toList
        else
          match token.Claims with
          | .MapClaims claims => .ok claims
          | _ => .error "invalid token".toList

/-- Method `ExtractClaim`; the receiver is not used. -/
def ExtractClaim (claims : MapClaims) (claimKey : Str) : Except Str Str :=
  match claims with
  | none => .error "internal server error".toList
  | some _ =>
    match claims.index claimKey with
    | some (.string value) =>
      if value = [] then .error "unauthorized".toList else .ok value
    | _ => .error "unauthorized".toList

deriving instance DecidableEq for Except

/-! ## The world outside the process, and the process state -/

/-- What a call finds outside the process. -/
structure World where
  /-- The environment variables. -/
  environ : Str → Option Str
  /-- Go `session.NewSession`: `none` when a session is obtained, else the error. -/
  NewSession : Option Str
  /-- Go `svc.GetParameter` with decryption, by parameter name: the value or the error. -/
  GetParameter : Str → Except Str Str
  /-- Go `pem.Decode`: the bytes of the first block, `none` when there is no block. -/
  pemDecode : Str → Option (List Nat)
  /-- Go `x509.ParsePKIXPublicKey`. -/
  ParsePKIXPublicKey : List Nat → Except Str PKIXPublicKey
  /-- The JWT library. -/
  jwt : JwtLib

/-- Calls recorded while the code runs. -/
inductive Event where
  | initRun
  | getParameter (parameterName : Str)
  | validateToken (tokenString : Str)
  | log (msg : Str)
deriving DecidableEq

/-- Whether an event is a fetch from the parameter store. -/
def Event.isFetch : Event → Bool
  | .getParameter _ => true
  | _ => false

/-- The package-level variables `once`, `jwtUtilsInstance`, `initError`. -/
structure Process where
  onceDone : Bool
  jwtUtilsInstance : Option JWTUtils
  initError : Option Str
deriving DecidableEq

/-- The variables when the process starts. -/
def Process.start : Process :=
  { onceDone := false, jwtUtilsInstance := none, initError := none }

/-- Function `getPublicKeyFromParameterStore`. -/
def getPublicKeyFromParameterStore (w : World) (parameterName : Str) :
    Except Str Str × List Event :=
  match w.NewSession with
  | some err => (.error err, [])
  | none =>
    match w.GetParameter parameterName with
    | .error err => (.error err, [.getParameter parameterName])
    | .ok value => (.ok value, [.getParameter parameterName])

/-- Method `initialize` on the receiver `j`: the error (`none` for nil), the receiver
after the call, and the calls made. -/
def initializeJWTUtils (K : Constants) (w : World) (j : Option JWTUtils) :
    (Option Str × Option JWTUtils) × List Event :=
  match j with
  | none => ((some "internal server error".toList, none), [])
  | some _ =>
    let envConfig := (LoadEnvConfig w.environ).1
    let parameterName := parameterNameOf K envConfig
    match getPublicKeyFromParameterStore w parameterName with
    | (.error err, evs) => ((some err, j), evs)
    | (.ok publicKeyString, evs) =>
      match w.pemDecode publicKeyString with
      | none => ((some "internal server error".toList, j), evs)
      | some block =>
        match w.ParsePKIXPublicKey block with
        | .error _ => ((some "internal server error".toList, j), evs)
        | .ok (.rsa rsaPublicKey) => ((none, some { publicKey := some rsaPublicKey }), evs)
        | .ok _ => ((some "internal server error".toList, j), evs)

/-- The function literal `GetInstance` passes to `once.Do` (lines 48 to 54). -/
def onceBody (K : Constants) (w : World) (p : Process) : Process × List Event :=
  let r := initializeJWTUtils K w (some { publicKey := none })
  match r.1.1 with
  | some _ =>
    ({ p with jwtUtilsInstance := none, initError := some "internal server error".toList },
      Event.initRun :: r.2)
  | none => ({ p with jwtUtilsInstance := r.1.2 }, Event.initRun :: r.2)

/-- Go `once.Do(f)`: `f` runs when the flag is not set, and the flag is set after it. -/
def onceDo (f : Process → Process × List Event) (p : Process) : Process × List Event :=
  if p.onceDone then (p, [])
  else
    let r := f p
    ({ r.1 with onceDone := true }, r.2)

/-- Function `GetInstance`. -/
def GetInstance (K : Constants) (w : World) (p : Process) :
    Except Str JWTUtils × Process × List Event :=
  let r := onceDo (onceBody K w) p
  match r.1.initError with
  | some err => (.error err, r.1, r.2)
  | none =>
    match r.1.jwtUtilsInstance with
    | none => (.error "internal server error".toList, r.1, r.2)
    | some j => (.ok j, r.1, r.2)

/-! ## The middleware -/

/-- Go `events.APIGatewayProxyRequest`, of which only `Headers` is read. -/
structure APIGatewayProxyRequest where
  Headers : List (Str × Str)
deriving DecidableEq

/-- Go `events.APIGatewayProxyResponse`, of which only these two fields are set. -/
structure APIGatewayProxyResponse where
  StatusCode : Int
  Body : Str
deriving DecidableEq

/-- Go map index `m[key]` on a `map[string]string`: the empty string when absent. -/
def mapIndex (m : List (Str × Str)) (key : Str) : Str := (m.lookup key).getD []

/-- Function `handleMiddlewareResponse`. -/
def handleMiddlewareResponse (statusCode : Int) (message : Str) :
    APIGatewayProxyResponse × Str × Option Str :=
  ({ StatusCode := statusCode, Body := message }, [], none)

/-- The loop over `cookies` (lines 204 to 212): the value `jwtToken` has after it. -/
def scanCookies (cookieName : Str) : List Str → Str
  | [] => []
  | c :: rest =>
    if HasPrefix (TrimSpace c) (cookieName ++ "=".toList) then
      TrimPrefix (TrimSpace c) (cookieName ++ "=".toList)
    else scanCookies cookieName rest

/-- The function `JWTMiddleware` returns, on the request `req`, in the process state
`p` and the world `w`: its three results, the process state after the call, and the
calls made. -/
def JWTMiddleware (K : Constants) (w : World) (p : Process) (req : APIGatewayProxyRequest) :
    (APIGatewayProxyResponse × Str × Option Str) × Process × List Event :=
  match GetInstance K w p with
  | (.error err, p1, evs) =>
    (handleMiddlewareResponse 500 "Internal server error".toList, p1,
      evs ++ [.log ("Failed to get JWTUtils instance: ".toList ++ err)])
  | (.ok jwtUtils, p1, evs) =>
    let cookie := mapIndex req.Headers "Cookie".toList
    if cookie = [] then
      (handleMiddlewareResponse 401 "Unauthenticated".toList, p1, evs)
    else
      let envConfig := (LoadEnvConfig w.environ).1
      let cookieName := cookieNameOf K envConfig
      let jwtToken := scanCookies cookieName (Split cookie ";".toList)
      if jwtToken = [] then
        (handleMiddlewareResponse 401 "Unauthenticated".toList, p1, evs)
      else
        match ValidateToken w.jwt (some jwtUtils) jwtToken with
        | .error err =>
          (handleMiddlewareResponse 401 "Invalid token".toList, p1,
            evs ++ [.validateToken jwtToken,
              .log ("Token validation failed: ".toList ++ err)])
        | .ok claims =>
          match ExtractClaim claims "userId".toList with
          | .error _ =>
            (handleMiddlewareResponse 401 "Unauthorized".toList, p1,
              evs ++ [.validateToken jwtToken])
          | .ok userId =>
            (handleMiddlewareResponse 200 userId, p1, evs ++ [.validateToken jwtToken])

/-- A sequence of calls of `GetInstance`, one world per call: each call's result and
the calls it made, in order. -/
def runGetInstance (K : Constants) : Process → List World →
    List (Except Str JWTUtils × List Event)
  | _, [] => []
  | p, w :: ws =>
    let r := GetInstance K w p
    (r.1, r.2.2) :: runGetInstance K r.2.1 ws

/-- A sequence of requests, one world per request: each request's results, in order. -/
def runMiddleware (K : Constants) : Process → List (World × APIGatewayProxyRequest) →
    List (APIGatewayProxyResponse × Str × Option Str)
  | _, [] => []
  | p, (w, req) :: rest =>
    let r := JWTMiddleware K w p req
    r.1 :: runMiddleware K r.2.1 rest

/-! ## Definitions used to state the properties -/

/-- Spec wording (4.4, step 4): the first segment of the header `h`, split on `;` and
trimmed of white space, that begins with the cookie name `n` followed by `=`. -/
def firstNamedSegment (n h : Str) : Option Str :=
  ((Split h ";".toList).map TrimSpace).find? (fun s => HasPrefix s (n ++ "=".toList))

/-- What `GetInstance` answers from the variables alone (lines 56 to 64). -/
def cachedOutcome (p : Process) : Except Str JWTUtils :=
  match p.initError with
  | some err => .error err
  | none =>
    match p.jwtUtilsInstance with
    | none => .error "internal server error".toList
    | some j => .ok j

/-- The causes for which `initialize` returns an error in the world `w`. -/
inductive ProvisioningFailure (K : Constants) (w : World) : Prop where
  | session (err : Str) (h : w.NewSession = some err)
  | fetch (err : Str) (h : w.GetParameter (parameterNameOf K (LoadEnvConfig w.environ).1)
      = .error err)
  | undecodablePEM (s : Str)
      (h : w.GetParameter (parameterNameOf K (LoadEnvConfig w.environ).1) = .ok s)
      (hpem : w.pemDecode s = none)
  | unparsableKey (s : Str) (block : List Nat) (err : Str)
      (h : w.GetParameter (parameterNameOf K (LoadEnvConfig w.environ).1) = .ok s)
      (hpem : w.pemDecode s = some block)
      (hkey : w.ParsePKIXPublicKey block = .error err)
  | nonRSAKey (s : Str) (block : List Nat) (pub : PKIXPublicKey)
      (h : w.GetParameter (parameterNameOf K (LoadEnvConfig w.environ).1) = .ok s)
      (hpem : w.pemDecode s = some block)
      (hkey : w.ParsePKIXPublicKey block = .ok pub)
      (hpub : ∀ k, pub ≠ .rsa k)

/-! ## Sample values -/

/-- Sample constants. -/
def sampleConstants : Constants where
  SESSION_COOKIE_NAME_PROD := "rds-session".toList
  SESSION_COOKIE_NAME_DEV := "rds-session-development".toList
  SESSION_COOKIE_NAME_LOCAL := "rds-session-local".toList
  RDS_BACKEND_PUBLIC_KEY_NAME_PROD := "PROD_KEY".toList
  RDS_BACKEND_PUBLIC_KEY_NAME_DEV := "DEV_KEY".toList
  RDS_BACKEND_PUBLIC_KEY_NAME_LOCAL := "LOCAL_KEY".toList

/-- A sample token with the signing method and claims given. -/
def sampleToken (raw : Str) (method : SigningMethod) (claims : MapClaims) : Token :=
  { Raw := raw, Method := method, Claims := .MapClaims claims, Signature := "sig".toList,
    Valid := false }

/-- A sample JWT library: it decodes four token strings, accepts the signature `sig`,
and reports a token with an `exp` claim as expired. -/
def sampleLib : JwtLib where
  ParseUnverified ts :=
    if ts = "abc".toList then
      .ok (sampleToken ts (.RSA "RS256".toList) (some [("userId".toList, .string "u1".toList)]),
        "h.c".toList)
    else if ts = "expiredtoken".toList then
      .ok (sampleToken ts (.RSA "RS256".toList)
        (some [("exp".toList, .number), ("userId".toList, .string "u1".toList)]), "h.c".toList)
    else if ts = "noid".toList then
      .ok (sampleToken ts (.RSA "RS256".toList) (some []), "h.c".toList)
    else if ts = "hmac".toList then
      .ok (sampleToken ts (.HMAC "HS256".toList) (some [("userId".toList, .string "u1".toList)]),
        "h.c".toList)
    else .error "token is malformed".toList
  Verify _ _ sig _ := if sig = "sig".toList then none else some "verification error".toList
  Validate c :=
    match c with
    | .MapClaims m => if (m.index "exp".toList).isSome then some "token is expired".toList else none
    | _ => none

/-- A sample world: the cookie name is set to `sid`, the store holds an RSA key. -/
def sampleWorld : World where
  environ k := if k = "SESSION_COOKIE_NAME".toList then some "sid".toList else none
  NewSession := none
  GetParameter _ := .ok "PEM".toList
  pemDecode _ := some [48]
  ParsePKIXPublicKey _ := .ok (.rsa { N := 3233, E := 17 })
  jwt := sampleLib

/-- A sample world in which the parameter store cannot be reached. -/
def failingWorld : World :=
  { sampleWorld with GetParameter := fun _ => .error "RequestError".toList }

/-- A request whose `Cookie` header is `cookie`. -/
def requestWithCookie (cookie : String) : APIGatewayProxyRequest :=
  { Headers := [("Cookie".toList, cookie.toList)] }

/-! ## Lemmas -/

/-- The string functions at samples: pieces keep their white space, an empty string
gives one empty piece, adjacent and trailing separators give empty pieces, a separator
of two characters is passed over whole, and trimming removes white space at both ends
only. -/
theorem strings_samples :
    Split "sid=abc; other=1".toList ";".toList = ["sid=abc".toList, " other=1".toList] ∧
    Split [] ";".toList = [[]] ∧
    Split "a;;b;".toList ";".toList = ["a".toList, [], "b".toList, []] ∧
    Split "a, b,c".toList ", ".toList = ["a".toList, "b,c".toList] ∧
    Split "ab".toList [] = ["a".toList, "b".toList] ∧
    TrimSpace "  \t sid=a bc \n".toList = "sid=a bc".toList ∧
    TrimPrefix "sid=a=b".toList "sid=".toList = "a=b".toList ∧
    TrimPrefix "xsid=a".toList "sid=".toList = "xsid=a".toList := by
  decide


theorem genSplit_ne_nil (sep : Str) (s : Str) : ∀ (k : Nat) (acc : Str),
    genSplit sep k acc s ≠ [] := by
  induction s with
  | nil => intro k acc; cases k <;> simp [genSplit]
  | cons c cs ih =>
    intro k acc
    cases k with
    | zero =>
      simp only [genSplit]
      split
      · simp
      · exact ih 0 _
    | succ k => simp only [genSplit]; exact ih k acc

theorem Join_cons (a : Str) (rest : List Str) (sep : Str) (h : rest ≠ []) :
    Join (a :: rest) sep = a ++ sep ++ Join rest sep := by
  cases rest with
  | nil => exact absurd rfl h
  | cons b rest => rfl

theorem genSplit_skip (sep : Str) (rem : Str) : ∀ (acc s : Str),
    genSplit sep rem.length acc (rem ++ s) = genSplit sep 0 acc s := by
  induction rem with
  | nil => intro acc s; rfl
  | cons c rem ih =>
    intro acc s
    simp only [List.length_cons, List.cons_append, genSplit]
    exact ih acc s

theorem genSplit_Join (sep : Str) (hsep : sep ≠ []) : ∀ (n : Nat) (s : Str), s.length ≤ n →
    ∀ acc : Str, Join (genSplit sep 0 acc s) sep = acc.reverse ++ s := by
  intro n
  induction n with
  | zero =>
    intro s hs acc
    have : s = [] := List.length_eq_zero.mp (Nat.le_zero.mp hs)
    subst this
    simp [genSplit, Join]
  | succ n ih =>
    intro s hs acc
    cases s with
    | nil => simp [genSplit, Join]
    | cons c cs =>
      simp only [genSplit]
      by_cases hp : HasPrefix (c :: cs) sep = true
      · simp only [hp, if_true]
        rw [Join_cons _ _ _ (genSplit_ne_nil _ _ _ _)]
        obtain ⟨t, ht⟩ := List.isPrefixOf_iff_prefix.mp hp
        cases sep with
        | nil => exact absurd rfl hsep
        | cons d ds =>
          simp only [List.cons_append, List.cons.injEq] at ht
          obtain ⟨hd, hcs⟩ := ht
          subst hd
          rw [← hcs]
          simp only [List.length_cons, Nat.add_sub_cancel]
          rw [genSplit_skip, ih t _ []]
          · simp
          · rw [← hcs] at hs
            simp only [List.length_cons, List.length_append] at hs
            omega
      · simp only [hp, Bool.false_eq_true, if_false]
        rw [ih cs (by simpa using hs)]
        simp

theorem explode_Join (s : Str) : Join (explode s) [] = s := by
  induction s with
  | nil => rfl
  | cons c cs ih =>
    cases cs with
    | nil => rfl
    | cons d ds =>
      simp only [explode, List.map] at ih ⊢
      simp only [Join]
      rw [ih]; simp

/-- Joining the pieces of `Split s sep` with `sep` gives `s` back. -/
theorem Split_Join (s sep : Str) : Join (Split s sep) sep = s := by
  unfold Split
  by_cases h : sep = []
  · subst h; simp only [if_true]; exact explode_Join s
  · simp only [h, if_false]
    rw [genSplit_Join sep h s.length s (Nat.le_refl _) []]; rfl

theorem genSplit_char_free (d : Char) (s : Str) : ∀ acc : Str, d ∉ acc →
    ∀ seg ∈ genSplit [d] 0 acc s, d ∉ seg := by
  induction s with
  | nil =>
    intro acc hacc seg hseg
    simp only [genSplit, List.mem_singleton] at hseg
    subst hseg
    simpa using hacc
  | cons c cs ih =>
    intro acc hacc seg hseg
    simp only [genSplit] at hseg
    by_cases hp : HasPrefix (c :: cs) [d] = true
    · simp only [hp, if_true, List.length_singleton, Nat.sub_self, List.mem_cons] at hseg
      rcases hseg with hseg | hseg
      · subst hseg; simpa using hacc
      · exact ih [] (by simp) seg hseg
    · simp only [hp, Bool.false_eq_true, if_false] at hseg
      have hne : d ≠ c := by
        intro hdc
        apply hp
        subst hdc
        simp [HasPrefix, List.isPrefixOf]
      refine ih (c :: acc) ?_ seg hseg
      simp only [List.mem_cons, not_or]
      exact ⟨hne, hacc⟩

/-- No piece of a split on a separator of one character contains that character. -/
theorem Split_char_free (s : Str) (d : Char) : ∀ seg ∈ Split s [d], d ∉ seg := by
  intro seg hseg
  unfold Split at hseg
  simp only [List.cons_ne_nil, if_false] at hseg
  exact genSplit_char_free d s [] (by simp) seg hseg

theorem TrimRightFunc_decompose (s : Str) (f : Char → Bool) :
    s = TrimRightFunc s f ++ (s.reverse.takeWhile f).reverse := by
  unfold TrimRightFunc
  rw [← List.reverse_append, List.takeWhile_append_dropWhile, List.reverse_reverse]

/-- A string is its leading white space, its trimmed part, and its trailing white
space. -/
theorem TrimSpace_decompose (s : Str) :
    s = s.takeWhile IsSpace ++ TrimSpace s ++
      ((s.dropWhile IsSpace).reverse.takeWhile IsSpace).reverse := by
  unfold TrimSpace TrimLeftFunc
  rw [List.append_assoc, ← TrimRightFunc_decompose, List.takeWhile_append_dropWhile]

/-- The last character of a trimmed string is not white space. -/
theorem TrimSpace_getLast (s : Str) (c : Char)
    (h : (TrimSpace s).getLast? = some c) : IsSpace c = false := by
  unfold TrimSpace TrimRightFunc at h
  rw [List.getLast?_reverse] at h
  have := List.head?_dropWhile_not IsSpace (TrimLeftFunc s IsSpace).reverse
  rw [h] at this
  simpa using this

/-- The first character of a trimmed string is not white space. -/
theorem TrimSpace_head (s : Str) (c : Char)
    (h : (TrimSpace s).head? = some c) : IsSpace c = false := by
  unfold TrimSpace TrimRightFunc TrimLeftFunc at h
  rw [List.head?_reverse] at h
  have hsuf : (s.dropWhile IsSpace).reverse.dropWhile IsSpace <:+
      (s.dropWhile IsSpace).reverse := List.dropWhile_suffix IsSpace
  obtain ⟨t, ht⟩ := hsuf
  have hne : (s.dropWhile IsSpace).reverse.dropWhile IsSpace ≠ [] := by
    intro h0; rw [h0] at h; cases h
  have h2 : ((s.dropWhile IsSpace).reverse).getLast? = some c := by
    rw [← ht, List.getLast?_append_of_ne_nil _ hne]; exact h
  rw [List.getLast?_reverse] at h2
  have := List.head?_dropWhile_not IsSpace s
  rw [h2] at this
  simpa using this

theorem scanCookies_eq (n : Str) (segs : List Str) :
    scanCookies n segs =
      match (segs.map TrimSpace).find? (fun s => HasPrefix s (n ++ "=".toList)) with
      | some s => s.drop (n.length + 1)
      | none => [] := by
  induction segs with
  | nil => rfl
  | cons c rest ih =>
    by_cases hc : HasPrefix (TrimSpace c) (n ++ "=".toList) = true
    · have hlen : (n ++ "=".toList).length = n.length + 1 := by simp
      simp only [scanCookies, TrimPrefix, hc, List.map, List.find?, if_true, hlen]
    · simp only [Bool.not_eq_true] at hc
      simp only [scanCookies, hc, List.map, List.find?, ih, Bool.false_eq_true, if_false]

theorem scanCookies_header (n h : Str) :
    scanCookies n (Split h ";".toList) =
      match firstNamedSegment n h with
      | some s => s.drop (n.length + 1)
      | none => [] := by
  rw [scanCookies_eq]; rfl

theorem onceDo_done (f : Process → Process × List Event) (p : Process)
    (hp : p.onceDone = true) : onceDo f p = (p, []) := by
  simp [onceDo, hp]

theorem GetInstance_eq (K : Constants) (w : World) (p : Process) :
    GetInstance K w p =
      (cachedOutcome (onceDo (onceBody K w) p).1, (onceDo (onceBody K w) p).1,
        (onceDo (onceBody K w) p).2) := by
  unfold GetInstance cachedOutcome
  cases h1 : (onceDo (onceBody K w) p).1.initError with
  | some e => simp [h1]
  | none =>
    cases h2 : (onceDo (onceBody K w) p).1.jwtUtilsInstance <;> simp [h1, h2]

theorem GetInstance_warm (K : Constants) (w : World) (p : Process)
    (hp : p.onceDone = true) : GetInstance K w p = (cachedOutcome p, p, []) := by
  rw [GetInstance_eq, onceDo_done _ _ hp]

theorem GetInstance_onceDone (K : Constants) (w : World) (p : Process) :
    (GetInstance K w p).2.1.onceDone = true := by
  rw [GetInstance_eq]
  by_cases hp : p.onceDone = true
  · simp [onceDo, hp]
  · simp [onceDo, hp]

theorem GetInstance_cached (K : Constants) (w : World) (p : Process) :
    cachedOutcome (GetInstance K w p).2.1 = (GetInstance K w p).1 := by
  rw [GetInstance_eq]

/-! ## Configuration resolution -/

theorem resolve_eq (o t : Option Str) (prod dev loc : Str) :
    (if o.getD [] = [] then
        if t.getD [] = PROD then prod else if t.getD [] = DEV then dev else loc
      else o.getD []) =
      (if o ≠ none ∧ o ≠ some [] then o.getD []
      else if t = some "PRODUCTION".toList then prod
      else if t = some "DEVELOPMENT".toList then dev
      else loc) := by
  have hP : ([] : Str) ≠ "PRODUCTION".toList := by decide
  have hD : ([] : Str) ≠ "DEVELOPMENT".toList := by decide
  unfold PROD DEV
  cases o with
  | none =>
    cases t with
    | none => simp only [Option.getD, hP, hD]; simp
    | some t => simp only [Option.getD]; simp
  | some o =>
    by_cases hoe : o = []
    · subst hoe
      cases t with
      | none => simp only [Option.getD, hP, hD]; simp
      | some t => simp only [Option.getD]; simp
    · simp [hoe]

/-- C6: for every environment, `LoadEnvConfig` returns a nil error, and the effective
cookie name is the override `SESSION_COOKIE_NAME` when it is set and non-empty,
otherwise the production default when `ENVIRONMENT` is `PRODUCTION`, the development
default when it is `DEVELOPMENT`, and the local default for every other value, an unset
or empty one included; the effective key identifier follows the same rule from
`RDS_BACKEND_PUBLIC_KEY_NAME` and its own three defaults. -/
theorem config_resolution (K : Constants) (environ : Str → Option Str) :
    (LoadEnvConfig environ).2 = none ∧
    cookieNameOf K (LoadEnvConfig environ).1 =
      (if environ "SESSION_COOKIE_NAME".toList ≠ none ∧
          environ "SESSION_COOKIE_NAME".toList ≠ some [] then
        (environ "SESSION_COOKIE_NAME".toList).getD []
      else if environ "ENVIRONMENT".toList = some "PRODUCTION".toList then
        K.SESSION_COOKIE_NAME_PROD
      else if environ "ENVIRONMENT".toList = some "DEVELOPMENT".toList then
        K.SESSION_COOKIE_NAME_DEV
      else K.SESSION_COOKIE_NAME_LOCAL) ∧
    parameterNameOf K (LoadEnvConfig environ).1 =
      (if environ "RDS_BACKEND_PUBLIC_KEY_NAME".toList ≠ none ∧
          environ "RDS_BACKEND_PUBLIC_KEY_NAME".toList ≠ some [] then
        (environ "RDS_BACKEND_PUBLIC_KEY_NAME".toList).getD []
      else if environ "ENVIRONMENT".toList = some "PRODUCTION".toList then
        K.RDS_BACKEND_PUBLIC_KEY_NAME_PROD
      else if environ "ENVIRONMENT".toList = some "DEVELOPMENT".toList then
        K.RDS_BACKEND_PUBLIC_KEY_NAME_DEV
      else K.RDS_BACKEND_PUBLIC_KEY_NAME_LOCAL) := by
  exact ⟨rfl, resolve_eq _ _ _ _ _, resolve_eq _ _ _ _ _⟩

/-- C6, at a sample: with no override and the tier `DEVELOPMENT` the development
defaults are chosen, and an unrecognised tier gives the local defaults. -/
theorem config_resolution_witness :
    cookieNameOf sampleConstants
        (LoadEnvConfig (fun k => if k = "ENVIRONMENT".toList then some "DEVELOPMENT".toList
          else none)).1 = "rds-session-development".toList ∧
    parameterNameOf sampleConstants
        (LoadEnvConfig (fun k => if k = "ENVIRONMENT".toList then some "staging".toList
          else none)).1 = "LOCAL_KEY".toList := by
  constructor
  · rw [(config_resolution sampleConstants _).2.1]; decide
  · rw [(config_resolution sampleConstants _).2.2]; decide

/-! ## Claim extraction -/

/-- C3, as stated, fails at the nil mapping: the claim `userId` is absent from it, and
`ExtractClaim` fails with `internal server error`, not with `unauthorized`. -/
theorem ExtractClaim_nil_counterexample :
    MapClaims.index none "userId".toList = none ∧
    ExtractClaim none "userId".toList = .error "internal server error".toList ∧
    ExtractClaim none "userId".toList ≠ .error "unauthorized".toList := by
  decide

/-- C3, amended: for every non-nil claim mapping `m` (the empty one included) and every
claim name `k`, `ExtractClaim` fails with `unauthorized` exactly when `k` is absent
from `m`, or `m[k]` is not a string, or `m[k]` is the empty string, and in every other
case it returns the string `m[k]` unchanged; for the nil mapping it fails with
`internal server error` for every claim name. -/
theorem ExtractClaim_spec (m : List (Str × AnyValue)) (k : Str) :
    (ExtractClaim (some m) k = .error "unauthorized".toList ↔
      (m.lookup k = none ∨ (∃ v, m.lookup k = some v ∧ ∀ s, v ≠ .string s) ∨
        m.lookup k = some (.string []))) ∧
    (∀ s, m.lookup k = some (.string s) → s ≠ [] → ExtractClaim (some m) k = .ok s) ∧
    ExtractClaim none k = .error "internal server error".toList := by
  refine ⟨?_, ?_, rfl⟩
  · simp only [ExtractClaim, MapClaims.index]
    cases hl : m.lookup k with
    | none => simp
    | some v =>
      cases v with
      | string s =>
        by_cases hs : s = []
        · simp [hs]
        · simp [hs]
      | _ => simp
  · intro s hl hs
    simp [ExtractClaim, MapClaims.index, hl, hs]

/-- C3, at samples: a present non-empty string claim is returned, and a number,
an empty string and a missing claim are refused. -/
theorem ExtractClaim_spec_witness :
    ExtractClaim (some [("userId".toList, .string "u1".toList)]) "userId".toList
      = .ok "u1".toList ∧
    ExtractClaim (some [("userId".toList, .number)]) "userId".toList
      = .error "unauthorized".toList ∧
    ExtractClaim (some [("userId".toList, .string [])]) "userId".toList
      = .error "unauthorized".toList ∧
    ExtractClaim (some []) "userId".toList = .error "unauthorized".toList := by
  refine ⟨(ExtractClaim_spec _ _).2.1 _ (by decide) (by decide), ?_, ?_, ?_⟩
  · exact (ExtractClaim_spec _ _).1.2 (Or.inr (Or.inl ⟨.number, by decide, by simp⟩))
  · exact (ExtractClaim_spec _ _).1.2 (Or.inr (Or.inr (by decide)))
  · exact (ExtractClaim_spec _ _).1.2 (Or.inl (by decide))

/-! ## Token validation -/

theorem ValidateToken_error_msg (lib : JwtLib) (j : JWTUtils) (publicKey : RSAPublicKey)
    (hj : j.publicKey = some publicKey) (tokenString err : Str)
    (h : ValidateToken lib (some j) tokenString = .error err) :
    err = "invalid token".toList := by
  unfold ValidateToken at h
  simp only [hj] at h
  split at h
  · injection h with h; exact h.symm
  · split at h
    · injection h with h; exact h.symm
    · split at h
      · cases h
      · injection h with h; exact h.symm

/-- With a key, `ValidateToken` returns claims exactly for a token string that decodes,
has a signing method of the RSA type, passes the signature check and the claims
validator, and carries its claims as a claim mapping. -/
theorem ValidateToken_ok_iff (lib : JwtLib) (j : JWTUtils) (publicKey : RSAPublicKey)
    (hj : j.publicKey = some publicKey) (tokenString : Str) (claims : MapClaims) :
    ValidateToken lib (some j) tokenString = .ok claims ↔
      ∃ token text alg, lib.ParseUnverified tokenString = .ok (token, text) ∧
        token.Method = .RSA alg ∧
        lib.Verify token.Method text token.Signature publicKey = none ∧
        lib.Validate token.Claims = none ∧
        token.Claims = .MapClaims claims := by
  simp only [ValidateToken, hj, jwtParse, keyFunc]
  constructor
  · intro h
    cases hp : lib.ParseUnverified tokenString with
    | error e => simp [hp] at h
    | ok r =>
      obtain ⟨⟨raw, method, cl, sig, valid⟩, text⟩ := r
      simp only [hp] at h
      cases method with
      | RSA alg =>
        simp only [] at h
        cases hv : lib.Verify (.RSA alg) text sig publicKey with
        | some e => simp [hv] at h
        | none =>
          simp only [hv] at h
          cases hc : lib.Validate cl with
          | some e => simp [hc] at h
          | none =>
            simp only [hc] at h
            cases cl with
            | RegisteredClaims => simp at h
            | MapClaims m =>
              simp at h
              exact ⟨_, text, alg, rfl, rfl, hv, hc, by rw [h]⟩
      | _ => simp at h
  · rintro ⟨⟨raw, method, cl, sig, valid⟩, text, alg, hp, hm, hv, hc, hcl⟩
    simp only at hm hv hc hcl
    subst hm hcl
    simp [hp, hv, hc]

/-- C4: when the receiver holds a public key, for every token string that decodes to a
token whose signing method is not of the type `*jwt.SigningMethodRSA` (the methods
`none`, HMAC, ECDSA, EdDSA and RSA-PSS), the key function returns the error
`invalid token` instead of the key, and `ValidateToken` returns no claims and the error
`invalid token`, whatever the signature check and the claims validator would say;
whatever the receiver, `ValidateToken` returns no claims for such a token. -/
theorem ValidateToken_rejects_non_RSA (lib : JwtLib) (j : JWTUtils)
    (publicKey : RSAPublicKey) (tokenString : Str) (token : Token) (text : Str)
    (hj : j.publicKey = some publicKey)
    (hparse : lib.ParseUnverified tokenString = .ok (token, text))
    (hmethod : ∀ alg, token.Method ≠ .RSA alg) :
    keyFunc publicKey token = .error "invalid token".toList ∧
    ValidateToken lib (some j) tokenString = .error "invalid token".toList ∧
    ∀ (j1 : Option JWTUtils) (claims : MapClaims),
      ValidateToken lib j1 tokenString ≠ .ok claims := by
  have hk : ∀ pk, keyFunc pk token = .error "invalid token".toList := by
    intro pk
    unfold keyFunc
    cases hm : token.Method with
    | RSA alg => exact absurd hm (hmethod alg)
    | _ => rfl
  have hp : ∀ pk, jwtParse lib tokenString (keyFunc pk)
      = .error ("error while executing keyfunc: ".toList ++ "invalid token".toList) := by
    intro pk
    simp only [jwtParse, hparse, hk]
  refine ⟨hk publicKey, ?_, ?_⟩
  · simp only [ValidateToken, hj, hp]
  · intro j1 claims h
    cases j1 with
    | none => cases h
    | some j0 =>
      cases hpk : j0.publicKey with
      | none => simp only [ValidateToken, hpk] at h; cases h
      | some pk => simp only [ValidateToken, hpk, hp] at h; cases h

/-- C4, at a sample: a well-formed HS256 token with a `userId` claim and the signature
the sample library accepts is refused. -/
theorem ValidateToken_rejects_non_RSA_witness :
    sampleLib.ParseUnverified "hmac".toList =
      .ok (sampleToken "hmac".toList (.HMAC "HS256".toList)
        (some [("userId".toList, .string "u1".toList)]), "h.c".toList) ∧
    ValidateToken sampleLib (some { publicKey := some { N := 3233, E := 17 } }) "hmac".toList
      = .error "invalid token".toList :=
  ⟨by decide,
    (ValidateToken_rejects_non_RSA sampleLib { publicKey := some { N := 3233, E := 17 } }
      { N := 3233, E := 17 } "hmac".toList
      (sampleToken "hmac".toList (.HMAC "HS256".toList)
        (some [("userId".toList, .string "u1".toList)])) "h.c".toList
      rfl (by decide) (by simp [sampleToken])).2.1⟩

/-! ## Key provisioning -/

theorem initialize_events (K : Constants) (w : World) (j : JWTUtils) :
    (initializeJWTUtils K w (some j)).2 = [] ∨
    (initializeJWTUtils K w (some j)).2 =
      [.getParameter (parameterNameOf K (LoadEnvConfig w.environ).1)] := by
  simp only [initializeJWTUtils, getPublicKeyFromParameterStore]
  cases w.NewSession with
  | some e => left; rfl
  | none =>
    right
    cases w.GetParameter (parameterNameOf K (LoadEnvConfig w.environ).1) with
    | error e => rfl
    | ok s =>
      simp only []
      cases w.pemDecode s with
      | none => rfl
      | some block =>
        simp only []
        cases w.ParsePKIXPublicKey block with
        | error e => rfl
        | ok pub => cases pub <;> rfl

theorem initialize_fails_iff (K : Constants) (w : World) (j : JWTUtils) :
    (initializeJWTUtils K w (some j)).1.1 ≠ none ↔ ProvisioningFailure K w := by
  constructor
  · intro h
    simp only [initializeJWTUtils, getPublicKeyFromParameterStore] at h
    cases hs : w.NewSession with
    | some e => exact .session e hs
    | none =>
      cases hg : w.GetParameter (parameterNameOf K (LoadEnvConfig w.environ).1) with
      | error e => exact .fetch e hg
      | ok s =>
        cases hp : w.pemDecode s with
        | none => exact .undecodablePEM s hg hp
        | some block =>
          cases hk : w.ParsePKIXPublicKey block with
          | error e => exact .unparsableKey s block e hg hp hk
          | ok pub =>
            cases pub with
            | rsa k => simp [hs, hg, hp, hk] at h
            | dsa => exact .nonRSAKey s block _ hg hp hk (fun k hk2 => by cases hk2)
            | ecdsa => exact .nonRSAKey s block _ hg hp hk (fun k hk2 => by cases hk2)
            | ed25519 => exact .nonRSAKey s block _ hg hp hk (fun k hk2 => by cases hk2)
            | ecdh => exact .nonRSAKey s block _ hg hp hk (fun k hk2 => by cases hk2)
  · intro h
    simp only [initializeJWTUtils, getPublicKeyFromParameterStore]
    cases hs : w.NewSession with
    | some e => simp
    | none =>
      cases h with
      | session e h => rw [hs] at h; cases h
      | fetch e h => simp [h]
      | undecodablePEM s h hp => simp [h, hp]
      | unparsableKey s block e h hp hk => simp [h, hp, hk]
      | nonRSAKey s block pub h hp hk hpub =>
        cases pub with
        | rsa k => exact absurd rfl (hpub k)
        | _ => simp [h, hp, hk]

theorem GetInstance_start_failed (K : Constants) (w : World)
    (h : ProvisioningFailure K w) :
    (GetInstance K w Process.start).2.1 =
      { onceDone := true, jwtUtilsInstance := none,
        initError := some "internal server error".toList } := by
  have hf := (initialize_fails_iff K w { publicKey := none }).2 h
  rw [GetInstance_eq]
  simp only [onceDo, Process.start, onceBody]
  cases hi : (initializeJWTUtils K w (some { publicKey := none })).1.1 with
  | none => exact absurd hi hf
  | some e => simp

theorem runGetInstance_warm (K : Constants) (p : Process) (hp : p.onceDone = true)
    (ws : List World) :
    runGetInstance K p ws = ws.map (fun _ => (cachedOutcome p, [])) := by
  induction ws with
  | nil => rfl
  | cons w ws ih => simp only [runGetInstance, GetInstance_warm K w p hp, ih, List.map]

/-- C5: in every sequence of one or more calls of `GetInstance` from the start of the
process, whatever each call finds outside the process, the first call runs `initialize`
exactly once and fetches from the parameter store at most once, every later call makes
no call at all (no `initialize`, no fetch) and returns the outcome of the first call;
that outcome is the instance holding the key when `initialize` returned no error, and
the error `internal server error` when it returned one. -/
theorem GetInstance_initializes_once (K : Constants) (w : World) (ws : List World) :
    runGetInstance K Process.start (w :: ws) =
      ((GetInstance K w Process.start).1, (GetInstance K w Process.start).2.2) ::
        ws.map (fun _ => ((GetInstance K w Process.start).1, [])) ∧
    (GetInstance K w Process.start).2.2.count Event.initRun = 1 ∧
    ((GetInstance K w Process.start).2.2.filter Event.isFetch).length ≤ 1 ∧
    (GetInstance K w Process.start).1 =
      (match (initializeJWTUtils K w (some { publicKey := none })).1 with
       | (none, some j) => .ok j
       | _ => .error "internal server error".toList) := by
  refine ⟨?_, ?_, ?_, ?_⟩
  · simp only [runGetInstance]
    rw [runGetInstance_warm K _ (GetInstance_onceDone K w Process.start), GetInstance_cached]
  · rw [GetInstance_eq]
    simp only [onceDo, Process.start, onceBody]
    have hev : ∀ evs : List Event, (evs = [] ∨
        evs = [.getParameter (parameterNameOf K (LoadEnvConfig w.environ).1)]) →
        (Event.initRun :: evs).count Event.initRun = 1 := by
      intro evs h
      rcases h with h | h <;> subst h <;> simp
    have h1 := hev _ (initialize_events K w { publicKey := none })
    cases hi : (initializeJWTUtils K w (some { publicKey := none })).1.1 <;>
      simpa [hi] using h1
  · rw [GetInstance_eq]
    simp only [onceDo, Process.start, onceBody]
    have hev : ∀ evs : List Event, (evs = [] ∨
        evs = [.getParameter (parameterNameOf K (LoadEnvConfig w.environ).1)]) →
        ((Event.initRun :: evs).filter Event.isFetch).length ≤ 1 := by
      intro evs h
      rcases h with h | h <;> subst h <;> simp [Event.isFetch]
    have h1 := hev _ (initialize_events K w { publicKey := none })
    cases hi : (initializeJWTUtils K w (some { publicKey := none })).1.1 <;>
      simpa [hi] using h1
  · rw [GetInstance_eq]
    simp only [onceDo, Process.start, onceBody, cachedOutcome]
    simp only [initializeJWTUtils, getPublicKeyFromParameterStore]
    cases hs : w.NewSession with
    | some e => simp
    | none =>
      cases hg : w.GetParameter (parameterNameOf K (LoadEnvConfig w.environ).1) with
      | error e => simp
      | ok s =>
        cases hp : w.pemDecode s with
        | none => simp [hp]
        | some block =>
          cases hk : w.ParsePKIXPublicKey block with
          | error e => simp [hp, hk]
          | ok pub => cases pub <;> simp [hp, hk]

/-- C5, at samples: three calls in a world where the store holds an RSA key return the
same instance with one fetch, also when the store is unreachable after the first call;
three calls that start in a world where the store is unreachable return the same
error, also when the store is reachable after the first call. -/
theorem GetInstance_initializes_once_witness :
    runGetInstance sampleConstants Process.start [sampleWorld, failingWorld, failingWorld] =
      [(.ok { publicKey := some { N := 3233, E := 17 } },
          [.initRun, .getParameter "LOCAL_KEY".toList]),
        (.ok { publicKey := some { N := 3233, E := 17 } }, []),
        (.ok { publicKey := some { N := 3233, E := 17 } }, [])] ∧
    runGetInstance sampleConstants Process.start [failingWorld, sampleWorld, sampleWorld] =
      [(.error "internal server error".toList,
          [.initRun, .getParameter "LOCAL_KEY".toList]),
        (.error "internal server error".toList, []),
        (.error "internal server error".toList, [])] := by
  constructor
  · rw [(GetInstance_initializes_once sampleConstants sampleWorld _).1]; decide
  · rw [(GetInstance_initializes_once sampleConstants failingWorld _).1]; decide

/-! ## The middleware -/

theorem GetInstance_no_validate (K : Constants) (w : World) (p : Process) (t : Str) :
    Event.validateToken t ∉ (GetInstance K w p).2.2 := by
  rw [GetInstance_eq]
  by_cases hp : p.onceDone = true
  · simp [onceDo, hp]
  · simp only [onceDo, hp, onceBody]
    have hev : ∀ evs : List Event, (evs = [] ∨
        evs = [.getParameter (parameterNameOf K (LoadEnvConfig w.environ).1)]) →
        Event.validateToken t ∉ Event.initRun :: evs := by
      intro evs h
      rcases h with h | h <;> subst h <;> simp
    have h1 := hev _ (initialize_events K w { publicKey := none })
    cases hi : (initializeJWTUtils K w (some { publicKey := none })).1.1 <;>
      simpa [hi] using h1

theorem scanCookies_empty_header (n : Str) : scanCookies n (Split [] ";".toList) = [] := by
  have h : HasPrefix (TrimSpace []) (n ++ "=".toList) = false := by
    cases n <;> rfl
  have hsplit : Split [] ";".toList = [[]] := by decide
  rw [hsplit]
  simp only [scanCookies, h, Bool.false_eq_true, if_false]

theorem JWTMiddleware_failed (K : Constants) (w : World) (p p1 : Process)
    (req : APIGatewayProxyRequest) (err : Str) (evs : List Event)
    (hkey : GetInstance K w p = (.error err, p1, evs)) :
    JWTMiddleware K w p req =
      (handleMiddlewareResponse 500 "Internal server error".toList, p1,
        evs ++ [.log ("Failed to get JWTUtils instance: ".toList ++ err)]) := by
  simp only [JWTMiddleware, hkey]

theorem JWTMiddleware_no_token (K : Constants) (w : World) (p p1 : Process)
    (req : APIGatewayProxyRequest) (j : JWTUtils) (evs : List Event)
    (hkey : GetInstance K w p = (.ok j, p1, evs))
    (hscan : scanCookies (cookieNameOf K (LoadEnvConfig w.environ).1)
      (Split (mapIndex req.Headers "Cookie".toList) ";".toList) = []) :
    JWTMiddleware K w p req =
      (handleMiddlewareResponse 401 "Unauthenticated".toList, p1, evs) := by
  simp only [JWTMiddleware, hkey, hscan, if_true]
  split <;> rfl

theorem JWTMiddleware_token (K : Constants) (w : World) (p p1 : Process)
    (req : APIGatewayProxyRequest) (j : JWTUtils) (evs : List Event) (t : Str)
    (hkey : GetInstance K w p = (.ok j, p1, evs))
    (hscan : scanCookies (cookieNameOf K (LoadEnvConfig w.environ).1)
      (Split (mapIndex req.Headers "Cookie".toList) ";".toList) = t)
    (ht : t ≠ []) :
    JWTMiddleware K w p req =
      match ValidateToken w.jwt (some j) t with
      | .error err =>
        (handleMiddlewareResponse 401 "Invalid token".toList, p1,
          evs ++ [.validateToken t, .log ("Token validation failed: ".toList ++ err)])
      | .ok claims =>
        match ExtractClaim claims "userId".toList with
        | .error _ =>
          (handleMiddlewareResponse 401 "Unauthorized".toList, p1, evs ++ [.validateToken t])
        | .ok userId => (handleMiddlewareResponse 200 userId, p1, evs ++ [.validateToken t]) := by
  have hc : mapIndex req.Headers "Cookie".toList ≠ [] := by
    intro hc
    rw [hc, scanCookies_empty_header] at hscan
    exact ht hscan.symm
  simp only [JWTMiddleware, hkey, hscan, hc, ht, if_false]

theorem JWTMiddleware_process (K : Constants) (w : World) (p : Process)
    (req : APIGatewayProxyRequest) :
    (JWTMiddleware K w p req).2.1 = (GetInstance K w p).2.1 := by
  rcases hkey : GetInstance K w p with ⟨r, p1, evs⟩
  cases r with
  | error err => rw [JWTMiddleware_failed K w p p1 req err evs hkey]
  | ok j =>
    by_cases hscan : scanCookies (cookieNameOf K (LoadEnvConfig w.environ).1)
        (Split (mapIndex req.Headers "Cookie".toList) ";".toList) = []
    · rw [JWTMiddleware_no_token K w p p1 req j evs hkey hscan]
    · rw [JWTMiddleware_token K w p p1 req j evs _ hkey rfl hscan]
      split
      · rfl
      · split <;> rfl

theorem runMiddleware_failed (K : Constants) (p : Process) (err : Str)
    (hp : p.onceDone = true) (he : p.initError = some err)
    (reqs : List (World × APIGatewayProxyRequest)) :
    ∀ r ∈ runMiddleware K p reqs,
      r = handleMiddlewareResponse 500 "Internal server error".toList := by
  induction reqs with
  | nil => intro r hr; cases hr
  | cons wr rest ih =>
    obtain ⟨w, req⟩ := wr
    have hg : GetInstance K w p = (.error err, p, []) := by
      rw [GetInstance_warm K w p hp]; simp [cachedOutcome, he]
    have hm := JWTMiddleware_failed K w p p req err [] hg
    intro r hr
    simp only [runMiddleware, hm, List.mem_cons] at hr
    rcases hr with hr | hr
    · exact hr
    · exact ih r hr

/-- C7: when `initialize` fails in the world of the first request of a process, for any
of its causes (no session, a fetch error, an undecodable PEM block, an unparsable key,
a key that is not an RSA key), every request of the process, the first and all later
ones, whatever its headers and whatever the world it finds, is answered with status
500, body `Internal server error`, an empty string and a nil error. -/
theorem JWTMiddleware_provisioning_failed (K : Constants) (w : World)
    (req : APIGatewayProxyRequest) (rest : List (World × APIGatewayProxyRequest))
    (hfail : ProvisioningFailure K w) :
    ∀ r ∈ runMiddleware K Process.start ((w, req) :: rest),
      r = ({ StatusCode := 500, Body := "Internal server error".toList }, [], none) := by
  have hstate := GetInstance_start_failed K w hfail
  have h1 : (GetInstance K w Process.start).1 = .error "internal server error".toList := by
    rw [← GetInstance_cached, hstate]; rfl
  have hg : GetInstance K w Process.start =
      (.error "internal server error".toList, (GetInstance K w Process.start).2.1,
        (GetInstance K w Process.start).2.2) := by
    rw [← h1]
  have hm := JWTMiddleware_failed K w Process.start _ req _ _ hg
  intro r hr
  simp only [runMiddleware, List.mem_cons] at hr
  rcases hr with hr | hr
  · rw [hr, hm]; rfl
  · rw [JWTMiddleware_process, hstate] at hr
    exact runMiddleware_failed K _ "internal server error".toList rfl rfl rest r hr

/-- C7, at a sample: the store is unreachable at the first request, which has no
headers; the second request carries a session cookie that verifies in its world, where
the store is reachable again; both are answered with status 500. -/
theorem JWTMiddleware_provisioning_failed_witness :
    ProvisioningFailure sampleConstants failingWorld ∧
    (runMiddleware sampleConstants Process.start
        [(failingWorld, { Headers := [] }), (sampleWorld, requestWithCookie "sid=abc")]).length
      = 2 ∧
    ∀ r ∈ runMiddleware sampleConstants Process.start
        [(failingWorld, { Headers := [] }), (sampleWorld, requestWithCookie "sid=abc")],
      r = ({ StatusCode := 500, Body := "Internal server error".toList }, [], none) :=
  ⟨.fetch "RequestError".toList rfl, rfl,
    JWTMiddleware_provisioning_failed sampleConstants failingWorld { Headers := [] }
      [(sampleWorld, requestWithCookie "sid=abc")] (.fetch "RequestError".toList rfl)⟩

theorem ExtractClaim_ok_of (claims : MapClaims) (k u : Str)
    (hu : claims.index k = some (.string u)) (hne : u ≠ []) :
    ExtractClaim claims k = .ok u := by
  cases claims with
  | none => cases hu
  | some m => simp only [ExtractClaim, hu, hne, if_false]

theorem ExtractClaim_error_of (claims : MapClaims) (k : Str)
    (h : claims.index k = none ∨ (∃ v, claims.index k = some v ∧ ∀ s, v ≠ .string s) ∨
      claims.index k = some (.string [])) :
    ∃ err, ExtractClaim claims k = .error err := by
  cases claims with
  | none => exact ⟨_, rfl⟩
  | some m =>
    rcases h with h | ⟨v, h, hv⟩ | h
    · exact ⟨"unauthorized".toList, by simp only [ExtractClaim, h]⟩
    · cases v with
      | string s => exact absurd rfl (hv s)
      | _ => exact ⟨"unauthorized".toList, by simp only [ExtractClaim, h]⟩
    · exact ⟨"unauthorized".toList, by simp only [ExtractClaim, h, if_true]⟩

/-- The process state and the calls of the first `GetInstance` in the sample world. -/
theorem sample_GetInstance :
    GetInstance sampleConstants sampleWorld Process.start =
      (.ok { publicKey := some { N := 3233, E := 17 } },
        { onceDone := true, jwtUtilsInstance := some { publicKey := some { N := 3233, E := 17 } },
          initError := none },
        [.initRun, .getParameter "LOCAL_KEY".toList]) := by
  decide

/-- C1: when `GetInstance` returns an instance, for every value `h` of the `Cookie`
header (the empty string of an absent header included) and the resolved cookie name
`n`, if no segment of `h` split on `;`, once trimmed of white space, begins with `n`
followed by `=`, then the middleware returns status 401 with body `Unauthenticated`, an
empty string and a nil error, and `ValidateToken` is not called. -/
theorem JWTMiddleware_no_named_cookie (K : Constants) (w : World) (p p1 : Process)
    (req : APIGatewayProxyRequest) (j : JWTUtils) (evs : List Event) (h n : Str)
    (hkey : GetInstance K w p = (.ok j, p1, evs))
    (hh : mapIndex req.Headers "Cookie".toList = h)
    (hn : cookieNameOf K (LoadEnvConfig w.environ).1 = n)
    (hno : ∀ seg ∈ Split h ";".toList, HasPrefix (TrimSpace seg) (n ++ "=".toList) = false) :
    (JWTMiddleware K w p req).1 =
      ({ StatusCode := 401, Body := "Unauthenticated".toList }, [], none) ∧
    ∀ t, Event.validateToken t ∉ (JWTMiddleware K w p req).2.2 := by
  subst hh hn
  have hnone : firstNamedSegment (cookieNameOf K (LoadEnvConfig w.environ).1)
      (mapIndex req.Headers "Cookie".toList) = none := by
    unfold firstNamedSegment
    rw [List.find?_eq_none]
    intro x hx
    rw [List.mem_map] at hx
    obtain ⟨seg, hseg, rfl⟩ := hx
    rw [hno seg hseg]
    exact Bool.false_ne_true
  have hscan : scanCookies (cookieNameOf K (LoadEnvConfig w.environ).1)
      (Split (mapIndex req.Headers "Cookie".toList) ";".toList) = [] := by
    rw [scanCookies_header, hnone]
  rw [JWTMiddleware_no_token K w p p1 req j evs hkey hscan]
  refine ⟨rfl, ?_⟩
  intro t
  have h1 := GetInstance_no_validate K w p t
  rw [hkey] at h1
  exact h1

/-- C1, at a sample: the cookie name is `sid` and the header carries the cookies
`other` and `xsid`. -/
theorem JWTMiddleware_no_named_cookie_witness :
    (JWTMiddleware sampleConstants sampleWorld Process.start
        (requestWithCookie "other=1; xsid=abc")).1 =
      ({ StatusCode := 401, Body := "Unauthenticated".toList }, [], none) :=
  (JWTMiddleware_no_named_cookie sampleConstants sampleWorld Process.start _
    (requestWithCookie "other=1; xsid=abc") _ _ "other=1; xsid=abc".toList "sid".toList
    sample_GetInstance rfl (by decide) (by decide)).1

/-- C10: when `GetInstance` returns an instance, if the first segment of the `Cookie`
header that, trimmed of white space, begins with the cookie name `n` followed by `=`
has nothing after that `=`, then the middleware returns status 401 with body
`Unauthenticated`, an empty string and a nil error, and `ValidateToken` is not called,
whatever the later segments are. -/
theorem JWTMiddleware_first_match_empty (K : Constants) (w : World) (p p1 : Process)
    (req : APIGatewayProxyRequest) (j : JWTUtils) (evs : List Event) (h n s : Str)
    (hkey : GetInstance K w p = (.ok j, p1, evs))
    (hh : mapIndex req.Headers "Cookie".toList = h)
    (hn : cookieNameOf K (LoadEnvConfig w.environ).1 = n)
    (hs : firstNamedSegment n h = some s)
    (hempty : s.drop (n.length + 1) = []) :
    (JWTMiddleware K w p req).1 =
      ({ StatusCode := 401, Body := "Unauthenticated".toList }, [], none) ∧
    ∀ t, Event.validateToken t ∉ (JWTMiddleware K w p req).2.2 := by
  subst hh hn
  have hscan : scanCookies (cookieNameOf K (LoadEnvConfig w.environ).1)
      (Split (mapIndex req.Headers "Cookie".toList) ";".toList) = [] := by
    rw [scanCookies_header, hs]; exact hempty
  rw [JWTMiddleware_no_token K w p p1 req j evs hkey hscan]
  refine ⟨rfl, ?_⟩
  intro t
  have h1 := GetInstance_no_validate K w p t
  rw [hkey] at h1
  exact h1

/-- C10, at a sample: the header `sid=; sid=abc` is refused, although the header
`sid=abc` is accepted in the same world. -/
theorem JWTMiddleware_first_match_empty_witness :
    (JWTMiddleware sampleConstants sampleWorld Process.start
        (requestWithCookie "sid=; sid=abc")).1 =
      ({ StatusCode := 401, Body := "Unauthenticated".toList }, [], none) ∧
    (JWTMiddleware sampleConstants sampleWorld Process.start
        (requestWithCookie "sid=abc")).1 =
      ({ StatusCode := 200, Body := "u1".toList }, [], none) :=
  ⟨(JWTMiddleware_first_match_empty sampleConstants sampleWorld Process.start _
      (requestWithCookie "sid=; sid=abc") _ _ "sid=; sid=abc".toList "sid".toList
      "sid=".toList sample_GetInstance rfl (by decide) (by decide) (by decide)).1,
    by decide⟩

/-- C2: when `GetInstance` returns an instance, let `s` be the first segment of the
`Cookie` header `h` that, trimmed of white space, begins with the cookie name `n`
followed by `=`, and `t` what follows that `=` in `s`; if `t` is not empty,
`ValidateToken` succeeds on `t`, and the claims map `userId` to a non-empty string `u`,
then the middleware returns the response with status 200 and body `u`, an empty string
and a nil error. -/
theorem JWTMiddleware_authenticated (K : Constants) (w : World) (p p1 : Process)
    (req : APIGatewayProxyRequest) (j : JWTUtils) (evs : List Event) (h n s t u : Str)
    (claims : MapClaims)
    (hkey : GetInstance K w p = (.ok j, p1, evs))
    (hh : mapIndex req.Headers "Cookie".toList = h)
    (hn : cookieNameOf K (LoadEnvConfig w.environ).1 = n)
    (hs : firstNamedSegment n h = some s)
    (ht : s.drop (n.length + 1) = t)
    (hne : t ≠ [])
    (hval : ValidateToken w.jwt (some j) t = .ok claims)
    (hu : claims.index "userId".toList = some (.string u))
    (hune : u ≠ []) :
    (JWTMiddleware K w p req).1 = ({ StatusCode := 200, Body := u }, [], none) := by
  subst hh hn
  have hscan : scanCookies (cookieNameOf K (LoadEnvConfig w.environ).1)
      (Split (mapIndex req.Headers "Cookie".toList) ";".toList) = t := by
    rw [scanCookies_header, hs]; exact ht
  rw [JWTMiddleware_token K w p p1 req j evs t hkey hscan hne]
  simp only [hval, ExtractClaim_ok_of claims _ u hu hune]
  rfl

/-- C2, at the sample of the claim: header `sid=abc; other=1`, cookie name `sid`, the
token `abc` verifies and carries the claim `userId` with value `u1`. -/
theorem JWTMiddleware_authenticated_witness :
    (JWTMiddleware sampleConstants sampleWorld Process.start
        (requestWithCookie "sid=abc; other=1")).1 =
      ({ StatusCode := 200, Body := "u1".toList }, [], none) :=
  JWTMiddleware_authenticated sampleConstants sampleWorld Process.start _
    (requestWithCookie "sid=abc; other=1") _ _ "sid=abc; other=1".toList "sid".toList
    "sid=abc".toList "abc".toList "u1".toList
    (some [("userId".toList, .string "u1".toList)])
    sample_GetInstance rfl (by decide) (by decide) (by decide) (by decide) (by decide)
    (by decide) (by decide)

/-- C8: when `GetInstance` returns an instance and the token `t` taken from the
session cookie is not empty, if `ValidateToken` fails on `t`, with whatever error, then
the middleware returns status 401 with body `Invalid token`, an empty string and a
nil error. -/
theorem JWTMiddleware_invalid_token (K : Constants) (w : World) (p p1 : Process)
    (req : APIGatewayProxyRequest) (j : JWTUtils) (evs : List Event) (h n s t err : Str)
    (hkey : GetInstance K w p = (.ok j, p1, evs))
    (hh : mapIndex req.Headers "Cookie".toList = h)
    (hn : cookieNameOf K (LoadEnvConfig w.environ).1 = n)
    (hs : firstNamedSegment n h = some s)
    (ht : s.drop (n.length + 1) = t)
    (hne : t ≠ [])
    (hval : ValidateToken w.jwt (some j) t = .error err) :
    (JWTMiddleware K w p req).1 =
      ({ StatusCode := 401, Body := "Invalid token".toList }, [], none) := by
  subst hh hn
  have hscan : scanCookies (cookieNameOf K (LoadEnvConfig w.environ).1)
      (Split (mapIndex req.Headers "Cookie".toList) ";".toList) = t := by
    rw [scanCookies_header, hs]; exact ht
  rw [JWTMiddleware_token K w p p1 req j evs t hkey hscan hne]
  simp only [hval]
  rfl

/-- C8, at the sample of the claim: header `sid=expiredtoken`, where the claims
validator reports the token as expired. -/
theorem JWTMiddleware_invalid_token_witness :
    sampleLib.Validate (.MapClaims (some [("exp".toList, .number),
      ("userId".toList, .string "u1".toList)])) = some "token is expired".toList ∧
    (JWTMiddleware sampleConstants sampleWorld Process.start
        (requestWithCookie "sid=expiredtoken")).1 =
      ({ StatusCode := 401, Body := "Invalid token".toList }, [], none) :=
  ⟨by decide,
    JWTMiddleware_invalid_token sampleConstants sampleWorld Process.start _
      (requestWithCookie "sid=expiredtoken") _ _ "sid=expiredtoken".toList "sid".toList
      "sid=expiredtoken".toList "expiredtoken".toList "invalid token".toList
      sample_GetInstance rfl (by decide) (by decide) (by decide) (by decide) (by decide)⟩

/-- C9: when `GetInstance` returns an instance and `ValidateToken` succeeds on the
non-empty token `t` taken from the session cookie, if the claims have no `userId`
entry, or a `userId` that is not a string, or the empty string as `userId`, then the
middleware returns status 401 with body `Unauthorized`, an empty string and a nil
error. -/
theorem JWTMiddleware_unauthorized (K : Constants) (w : World) (p p1 : Process)
    (req : APIGatewayProxyRequest) (j : JWTUtils) (evs : List Event) (h n s t : Str)
    (claims : MapClaims)
    (hkey : GetInstance K w p = (.ok j, p1, evs))
    (hh : mapIndex req.Headers "Cookie".toList = h)
    (hn : cookieNameOf K (LoadEnvConfig w.environ).1 = n)
    (hs : firstNamedSegment n h = some s)
    (ht : s.drop (n.length + 1) = t)
    (hne : t ≠ [])
    (hval : ValidateToken w.jwt (some j) t = .ok claims)
    (hclaim : claims.index "userId".toList = none ∨
      (∃ v, claims.index "userId".toList = some v ∧ ∀ u, v ≠ .string u) ∨
      claims.index "userId".toList = some (.string [])) :
    (JWTMiddleware K w p req).1 =
      ({ StatusCode := 401, Body := "Unauthorized".toList }, [], none) := by
  subst hh hn
  have hscan : scanCookies (cookieNameOf K (LoadEnvConfig w.environ).1)
      (Split (mapIndex req.Headers "Cookie".toList) ";".toList) = t := by
    rw [scanCookies_header, hs]; exact ht
  obtain ⟨err, herr⟩ := ExtractClaim_error_of claims "userId".toList hclaim
  rw [JWTMiddleware_token K w p p1 req j evs t hkey hscan hne]
  simp only [hval, herr]
  rfl

/-- C9, at the sample of the claim: the token `noid` verifies and its claims are
empty. -/
theorem JWTMiddleware_unauthorized_witness :
    ValidateToken sampleLib (some { publicKey := some { N := 3233, E := 17 } }) "noid".toList
      = .ok (some []) ∧
    (JWTMiddleware sampleConstants sampleWorld Process.start
        (requestWithCookie "sid=noid")).1 =
      ({ StatusCode := 401, Body := "Unauthorized".toList }, [], none) :=
  ⟨by decide,
    JWTMiddleware_unauthorized sampleConstants sampleWorld Process.start _
      (requestWithCookie "sid=noid") _ _ "sid=noid".toList "sid".toList
      "sid=noid".toList "noid".toList (some [])
      sample_GetInstance rfl (by decide) (by decide) (by decide) (by decide) (by decide)
      (Or.inl (by decide))⟩

end FeatureFlag
